import Mathlib

/-!
Shallow embedding of the `backend/autotrade` analytics pipeline
(global-pulse-terminal) and proofs about it.

Modelling conventions:
* Python floats are modelled as exact rationals (`ℚ`); transcendental
  helpers used by the Black-Scholes code (`math.exp`, `math.log`,
  `math.sqrt`, `scipy.stats.norm.cdf`, `norm.pdf`) are abstracted as a
  record of functions `ℚ → ℚ`, with the mathematical facts the proofs
  need (e.g. symmetry of the normal CDF) taken as hypotheses.
* Python's `round(x, n)` rounds half-to-even; we model it as rounding to
  the nearest multiple of `10^-n` (`pyRound`), which agrees with Python
  except on exact midpoints.  No statement below depends on midpoint
  behaviour.
* Python dicts keyed by strings are modelled as association lists in
  insertion order (`List (String × _)`), which matches the iteration
  order of Python 3.7+ dicts.
-/

namespace AutoTrade

/-- Rounding to `n` decimal digits, modelling Python's `round(x, n)`
(up to midpoint tie-breaking, see module docstring). -/
def pyRound (n : ℕ) (x : ℚ) : ℚ := (round (x * 10 ^ n) : ℤ) / 10 ^ n

/-! ### Options-chain records

One row of the `options_chain` list as consumed by
`ActiveTradesAgent._compute_pcr` and `_compute_max_pain`:
`index`, `type` (`"CE"`/`"PE"`), `strike`, `oi`, `volume`. -/

structure ChainOpt where
  index : String
  type : String
  strike : ℚ
  oi : ℚ
  volume : ℚ
deriving DecidableEq, Repr

/-! ### `ActiveTradesAgent._compute_pcr` -/

/-- The per-index accumulator dict
`{"put_oi": _, "call_oi": _, "put_vol": _, "call_vol": _}`. -/
structure PcrAcc where
  put_oi : ℚ
  call_oi : ℚ
  put_vol : ℚ
  call_vol : ℚ
deriving DecidableEq, Repr

/-- `if opt.get("type") == "PE": ... else: ...` — add one option's OI and
volume into the accumulator. -/
def pcrAdd (a : PcrAcc) (o : ChainOpt) : PcrAcc :=
  if o.type = "PE" then
    { a with put_oi := a.put_oi + o.oi, put_vol := a.put_vol + o.volume }
  else
    { a with call_oi := a.call_oi + o.oi, call_vol := a.call_vol + o.volume }

/-- `if idx not in pcr_by_index: pcr_by_index[idx] = {...zeros...}` -/
def ensureKey (l : List (String × PcrAcc)) (idx : String) : List (String × PcrAcc) :=
  if (l.lookup idx).isSome then l else l ++ [(idx, ⟨0, 0, 0, 0⟩)]

/-- In-place update of the entry at `idx` (Python `pcr_by_index[idx][...] += ...`). -/
def bumpKey (l : List (String × PcrAcc)) (idx : String) (o : ChainOpt) :
    List (String × PcrAcc) :=
  l.map fun p => if p.1 = idx then (p.1, pcrAdd p.2 o) else p

/-- One iteration of the `for opt in options` loop of `_compute_pcr`. -/
def pcrStep (l : List (String × PcrAcc)) (o : ChainOpt) : List (String × PcrAcc) :=
  bumpKey (ensureKey l o.index) o.index o

/-- The accumulation loop of `_compute_pcr` over the whole chain. -/
def pcrGroups (options : List ChainOpt) : List (String × PcrAcc) :=
  options.foldl pcrStep []

/-- One value of the dict returned by `_compute_pcr`. -/
structure PcrEntry where
  oi_pcr : ℚ
  volume_pcr : ℚ
  signal : String
deriving DecidableEq, Repr

/-- The result-building loop body of `_compute_pcr`:
guarded divisions, 3-digit rounding, and the signal ternary. -/
def pcrOf (a : PcrAcc) : PcrEntry :=
  let oi_pcr := if a.call_oi > 0 then a.put_oi / a.call_oi else 0
  let vol_pcr := if a.call_vol > 0 then a.put_vol / a.call_vol else 0
  { oi_pcr := pyRound 3 oi_pcr
    volume_pcr := pyRound 3 vol_pcr
    signal :=
      if oi_pcr > 12/10 then "bearish"
      else if oi_pcr < 7/10 then "bullish" else "neutral" }

/-- `ActiveTradesAgent._compute_pcr`. -/
def compute_pcr (options : List ChainOpt) : List (String × PcrEntry) :=
  (pcrGroups options).map fun p => (p.1, pcrOf p.2)

/-! Spec-side characterisations of the four per-index sums, used to state
theorems about `compute_pcr` independently of the fold. -/

/-- Summed put OI of the options of one index. -/
def putOiSum (options : List ChainOpt) (idx : String) : ℚ :=
  (options.map fun o => if o.index = idx ∧ o.type = "PE" then o.oi else 0).sum

/-- Summed call OI of the options of one index (anything not `"PE"`
counts as a call, as in the source's `else` branch). -/
def callOiSum (options : List ChainOpt) (idx : String) : ℚ :=
  (options.map fun o => if o.index = idx ∧ ¬ o.type = "PE" then o.oi else 0).sum

/-- Summed put volume of the options of one index. -/
def putVolSum (options : List ChainOpt) (idx : String) : ℚ :=
  (options.map fun o => if o.index = idx ∧ o.type = "PE" then o.volume else 0).sum

/-- Summed call volume of the options of one index. -/
def callVolSum (options : List ChainOpt) (idx : String) : ℚ :=
  (options.map fun o => if o.index = idx ∧ ¬ o.type = "PE" then o.volume else 0).sum

/-- Adding the sums of a whole list on top of an accumulator. -/
def accPlusSums (a : PcrAcc) (options : List ChainOpt) (idx : String) : PcrAcc :=
  ⟨a.put_oi + putOiSum options idx, a.call_oi + callOiSum options idx,
   a.put_vol + putVolSum options idx, a.call_vol + callVolSum options idx⟩

theorem lookup_cons_self {β : Type} (k : String) (b : β) (t : List (String × β)) :
    List.lookup k ((k, b) :: t) = some b := by
  simp [List.lookup]

theorem lookup_cons_ne {β : Type} {j k : String} (b : β) (t : List (String × β))
    (h : j ≠ k) : List.lookup j ((k, b) :: t) = List.lookup j t := by
  rw [List.lookup, show (j == k) = false by simp [h]]

theorem bumpKey_cons_eq (k : String) (a : PcrAcc) (t : List (String × PcrAcc))
    (o : ChainOpt) : bumpKey ((k, a) :: t) k o = (k, pcrAdd a o) :: bumpKey t k o := by
  simp [bumpKey]

theorem bumpKey_cons_ne {k idx : String} (a : PcrAcc) (t : List (String × PcrAcc))
    (o : ChainOpt) (h : k ≠ idx) :
    bumpKey ((k, a) :: t) idx o = (k, a) :: bumpKey t idx o := by
  simp [bumpKey, h]

theorem lookup_bumpKey_self (l : List (String × PcrAcc)) (idx : String) (o : ChainOpt) :
    (bumpKey l idx o).lookup idx = (l.lookup idx).map (pcrAdd · o) := by
  induction l with
  | nil => simp [bumpKey]
  | cons p t ih =>
    obtain ⟨k, a⟩ := p
    by_cases h : k = idx
    · subst h
      rw [bumpKey_cons_eq, lookup_cons_self, lookup_cons_self, Option.map_some']
    · rw [bumpKey_cons_ne a t o h, lookup_cons_ne _ _ (Ne.symm h),
        lookup_cons_ne _ _ (Ne.symm h)]
      exact ih

theorem lookup_bumpKey_ne (l : List (String × PcrAcc)) (idx j : String) (o : ChainOpt)
    (h : j ≠ idx) : (bumpKey l idx o).lookup j = l.lookup j := by
  induction l with
  | nil => simp [bumpKey]
  | cons p t ih =>
    obtain ⟨k, a⟩ := p
    by_cases hp : k = idx
    · subst hp
      rw [bumpKey_cons_eq, lookup_cons_ne _ _ h, lookup_cons_ne _ _ h]
      exact ih
    · rw [bumpKey_cons_ne a t o hp]
      by_cases hj : j = k
      · subst hj
        rw [lookup_cons_self, lookup_cons_self]
      · rw [lookup_cons_ne _ _ hj, lookup_cons_ne _ _ hj]
        exact ih

theorem lookup_ensureKey_self (l : List (String × PcrAcc)) (idx : String) :
    (ensureKey l idx).lookup idx = some ((l.lookup idx).getD ⟨0, 0, 0, 0⟩) := by
  unfold ensureKey
  cases h : l.lookup idx with
  | some a => simp [h]
  | none => simp [h, List.lookup_append, List.lookup]

theorem lookup_ensureKey_ne (l : List (String × PcrAcc)) (idx j : String) (h : j ≠ idx) :
    (ensureKey l idx).lookup j = l.lookup j := by
  unfold ensureKey
  cases hl : l.lookup idx with
  | some a => simp
  | none =>
    simp only [hl, Option.isSome_none, Bool.false_eq_true, if_false, List.lookup_append]
    cases hj : l.lookup j with
    | some b => simp
    | none => simp [lookup_cons_ne _ _ h]

theorem lookup_pcrStep_self (acc : List (String × PcrAcc)) (o : ChainOpt) :
    (pcrStep acc o).lookup o.index =
      some (pcrAdd ((acc.lookup o.index).getD ⟨0, 0, 0, 0⟩) o) := by
  rw [pcrStep, lookup_bumpKey_self, lookup_ensureKey_self, Option.map_some']

theorem lookup_pcrStep_ne (acc : List (String × PcrAcc)) (o : ChainOpt) (j : String)
    (h : j ≠ o.index) : (pcrStep acc o).lookup j = acc.lookup j := by
  rw [pcrStep, lookup_bumpKey_ne _ _ _ _ h, lookup_ensureKey_ne _ _ _ h]

theorem accPlusSums_cons_self (a : PcrAcc) (o : ChainOpt) (rest : List ChainOpt) :
    accPlusSums (pcrAdd a o) rest o.index = accPlusSums a (o :: rest) o.index := by
  unfold accPlusSums pcrAdd putOiSum callOiSum putVolSum callVolSum
  by_cases h : o.type = "PE" <;> simp [h] <;> constructor <;> ring

theorem accPlusSums_cons_ne (a : PcrAcc) (o : ChainOpt) (rest : List ChainOpt)
    (idx : String) (h : ¬ o.index = idx) :
    accPlusSums a (o :: rest) idx = accPlusSums a rest idx := by
  unfold accPlusSums putOiSum callOiSum putVolSum callVolSum
  simp [h]

/-- Invariant of the accumulation loop of `_compute_pcr`: the entry the
fold holds for a given index is the sum over the options processed so
far (on top of whatever the accumulator already held). -/
theorem lookup_pcr_foldl (opts : List ChainOpt) :
    ∀ (acc : List (String × PcrAcc)) (idx : String),
      (opts.foldl pcrStep acc).lookup idx =
        match acc.lookup idx with
        | some a => some (accPlusSums a opts idx)
        | none =>
          if opts.any (fun o => o.index == idx) then
            some (accPlusSums ⟨0, 0, 0, 0⟩ opts idx)
          else none := by
  induction opts with
  | nil =>
    intro acc idx
    cases h : acc.lookup idx <;>
      simp [h, accPlusSums, putOiSum, callOiSum, putVolSum, callVolSum]
  | cons o rest ih =>
    intro acc idx
    rw [List.foldl_cons, ih (pcrStep acc o) idx]
    by_cases hidx : idx = o.index
    · subst hidx
      rw [lookup_pcrStep_self]
      cases h : acc.lookup o.index with
      | some a =>
        simp only [h, Option.getD_some, accPlusSums_cons_self]
      | none =>
        simp only [h, Option.getD_none, accPlusSums_cons_self, List.any_cons,
          beq_self_eq_true, Bool.true_or, if_true]
    · rw [lookup_pcrStep_ne _ _ _ hidx]
      have hne : ¬ o.index = idx := fun h => hidx (h.symm)
      cases h : acc.lookup idx with
      | some a => simp only [h, accPlusSums_cons_ne _ _ _ _ hne]
      | none =>
        simp only [h, accPlusSums_cons_ne _ _ _ _ hne, List.any_cons,
          show (o.index == idx) = false by simp [hne], Bool.false_or]

theorem lookup_map_entries {β γ : Type} (l : List (String × β)) (f : β → γ)
    (idx : String) :
    (l.map fun p => (p.1, f p.2)).lookup idx = (l.lookup idx).map f := by
  induction l with
  | nil => simp
  | cons p t ih =>
    obtain ⟨k, b⟩ := p
    by_cases h : idx = k
    · subst h
      rw [List.map_cons, lookup_cons_self, lookup_cons_self, Option.map_some']
    · rw [List.map_cons, lookup_cons_ne _ _ h, lookup_cons_ne _ _ h]
      exact ih

theorem pyRound_zero (n : ℕ) : pyRound n 0 = 0 := by
  simp [pyRound]

/-- C1 (amended): in every options chain, an index whose summed call OI
is 0 gets a PCR entry with `oi_pcr = 0` (the guarded division is never
executed, so no exception is raised) and signal `"bullish"` (since
`0 < 0.7` takes the bullish branch of the signal ternary). -/
theorem compute_pcr_zero_call_oi (opts : List ChainOpt) (idx : String)
    (hmem : ∃ o ∈ opts, o.index = idx) (hz : callOiSum opts idx = 0) :
    (compute_pcr opts).lookup idx =
      some ⟨0, pyRound 3 (if callVolSum opts idx > 0 then
        putVolSum opts idx / callVolSum opts idx else 0), "bullish"⟩ := by
  have hany : opts.any (fun o => o.index == idx) = true := by
    obtain ⟨o, ho, hoi⟩ := hmem
    exact List.any_eq_true.mpr ⟨o, ho, by simp [hoi]⟩
  rw [compute_pcr, lookup_map_entries, pcrGroups, lookup_pcr_foldl opts [] idx]
  simp only [List.lookup, hany, if_true, Option.map_some']
  congr 1
  unfold pcrOf accPlusSums
  simp only [hz, zero_add]
  norm_num [pyRound_zero]

/-- Witness for C1 at a one-option chain holding a single put. -/
theorem compute_pcr_zero_call_oi_witness :
    (compute_pcr [⟨"nifty50", "PE", 100, 10, 5⟩]).lookup "nifty50" =
      some ⟨0, pyRound 3 (if callVolSum [⟨"nifty50", "PE", 100, 10, 5⟩] "nifty50" > 0 then
        putVolSum [⟨"nifty50", "PE", 100, 10, 5⟩] "nifty50" /
          callVolSum [⟨"nifty50", "PE", 100, 10, 5⟩] "nifty50" else 0), "bullish"⟩ :=
  compute_pcr_zero_call_oi [⟨"nifty50", "PE", 100, 10, 5⟩] "nifty50"
    ⟨⟨"nifty50", "PE", 100, 10, 5⟩, by simp, rfl⟩ (by norm_num [callOiSum])

/-- C1 counterexample: a chain whose only index has zero summed call OI
produces signal `"bullish"`, not `"neutral"` as the claim states. -/
theorem compute_pcr_zero_call_oi_counterexample :
    callOiSum [⟨"nifty50", "PE", 100, 10, 5⟩] "nifty50" = 0 ∧
    (compute_pcr [⟨"nifty50", "PE", 100, 10, 5⟩]).lookup "nifty50" =
      some ⟨0, 0, "bullish"⟩ ∧ ("bullish" : String) ≠ "neutral" := by
  refine ⟨by norm_num [callOiSum], ?_, by simp⟩
  norm_num [compute_pcr, pcrGroups, pcrStep, ensureKey, bumpKey, pcrAdd, pcrOf,
    pyRound, List.lookup, round_eq]

/-! ### `ActiveTradesAgent._detect_buildup`

Input rows are options already annotated by `_score_options` with
`change_oi` and `oi_change_pct`; only the fields read by
`_detect_buildup` are modelled. -/

structure ScoredOpt where
  index : String
  type : String
  strike : ℚ
  change_oi : ℚ
  oi_change_pct : ℚ
deriving DecidableEq, Repr

/-- One entry of the `signals` list built by `_detect_buildup`. -/
structure OiSignal where
  strike : ℚ
  type : String
  index : String
  signal : String
  oi_change : ℚ
  oi_change_pct : ℚ
  interpretation : String
deriving DecidableEq, Repr

/-- The body of the `for opt in scored_options` loop of `_detect_buildup`:
`none` models `continue`. -/
def oiSignalOf (o : ScoredOpt) : Option OiSignal :=
  if |o.oi_change_pct| < 5 then none
  else if o.change_oi > 0 ∧ o.oi_change_pct > 20 then
    some ⟨o.strike, o.type, o.index, "buildup", o.change_oi, o.oi_change_pct,
      if o.type = "CE" then "Call OI buildup — bullish signal"
      else "Put OI buildup — bearish signal / hedging"⟩
  else if o.change_oi < 0 ∧ o.oi_change_pct < -20 then
    some ⟨o.strike, o.type, o.index, "unwinding", o.change_oi, o.oi_change_pct,
      if o.type = "CE" then "Call OI unwinding — bearish signal"
      else "Put OI unwinding — bullish signal"⟩
  else none

/-- `ActiveTradesAgent._detect_buildup`: collect the loop's signals in
input order and return `signals[:10]`. -/
def detect_buildup (scored : List ScoredOpt) : List OiSignal :=
  (scored.filterMap oiSignalOf).take 10

/-- Spec-side characterisation: the condition under which the loop emits
a signal for an option. -/
def qualifies (o : ScoredOpt) : Prop :=
  (o.change_oi > 0 ∧ o.oi_change_pct > 20) ∨
  (o.change_oi < 0 ∧ o.oi_change_pct < -20)

instance (o : ScoredOpt) : Decidable (qualifies o) := by
  unfold qualifies; infer_instance

/-- Spec-side characterisation: the signal emitted for a qualifying option. -/
def mkOiSignal (o : ScoredOpt) : OiSignal :=
  if o.change_oi > 0 ∧ o.oi_change_pct > 20 then
    ⟨o.strike, o.type, o.index, "buildup", o.change_oi, o.oi_change_pct,
      if o.type = "CE" then "Call OI buildup — bullish signal"
      else "Put OI buildup — bearish signal / hedging"⟩
  else
    ⟨o.strike, o.type, o.index, "unwinding", o.change_oi, o.oi_change_pct,
      if o.type = "CE" then "Call OI unwinding — bearish signal"
      else "Put OI unwinding — bullish signal"⟩

/-- The `|oi_change_pct| < 5` guard is subsumed by the `> 20` / `< -20`
branch conditions, so the loop body emits a signal exactly on
`qualifies`. -/
theorem oiSignalOf_eq_ite (o : ScoredOpt) :
    oiSignalOf o = if qualifies o then some (mkOiSignal o) else none := by
  unfold oiSignalOf qualifies mkOiSignal
  by_cases h5 : |o.oi_change_pct| < 5
  · rw [if_pos h5]
    have h5' := abs_lt.mp h5
    rw [if_neg]
    rintro (⟨-, h⟩ | ⟨-, h⟩) <;> linarith [h5'.1, h5'.2]
  · rw [if_neg h5]
    by_cases h1 : o.change_oi > 0 ∧ o.oi_change_pct > 20
    · rw [if_pos h1, if_pos (Or.inl h1), if_pos h1]
    · rw [if_neg h1]
      by_cases h2 : o.change_oi < 0 ∧ o.oi_change_pct < -20
      · rw [if_pos h2, if_pos (Or.inr h2), if_neg h1]
      · rw [if_neg h2, if_neg]
        rintro (h | h)
        · exact h1 h
        · exact h2 h

theorem filterMap_oiSignalOf (scored : List ScoredOpt) :
    scored.filterMap oiSignalOf =
      (scored.filter fun o => decide (qualifies o)).map mkOiSignal := by
  induction scored with
  | nil => simp
  | cons o t ih =>
    by_cases h : qualifies o
    · simp [List.filterMap_cons, List.filter_cons, oiSignalOf_eq_ite, h, ih]
    · simp [List.filterMap_cons, List.filter_cons, oiSignalOf_eq_ite, h, ih]

/-- C3 (amended): `_detect_buildup` returns at most 10 signals, and they
are the *first* 10 qualifying options in scan order (not the 10 with the
largest `|oi_change_pct|`). -/
theorem detect_buildup_first_ten (scored : List ScoredOpt) :
    (detect_buildup scored).length ≤ 10 ∧
    detect_buildup scored =
      ((scored.filter fun o => decide (qualifies o)).map mkOiSignal).take 10 := by
  refine ⟨?_, by rw [detect_buildup, filterMap_oiSignalOf]⟩
  unfold detect_buildup
  exact List.length_take_le 10 (scored.filterMap oiSignalOf)

/-- C3 counterexample: with eleven qualifying options where the
*last* has the largest `|oi_change_pct|` (100 vs 21), the returned list
is the first ten (all with 21) and the top-ranked signal (100) is
missing — so the result is not the top 10 by `|oi_change_pct|`. -/
theorem detect_buildup_counterexample :
    (detect_buildup
      [⟨"nifty50", "CE", 100, 1, 21⟩, ⟨"nifty50", "CE", 101, 1, 21⟩,
       ⟨"nifty50", "CE", 102, 1, 21⟩, ⟨"nifty50", "CE", 103, 1, 21⟩,
       ⟨"nifty50", "CE", 104, 1, 21⟩, ⟨"nifty50", "CE", 105, 1, 21⟩,
       ⟨"nifty50", "CE", 106, 1, 21⟩, ⟨"nifty50", "CE", 107, 1, 21⟩,
       ⟨"nifty50", "CE", 108, 1, 21⟩, ⟨"nifty50", "CE", 109, 1, 21⟩,
       ⟨"nifty50", "CE", 200, 1, 100⟩]).map (fun s => s.oi_change_pct) =
      [21, 21, 21, 21, 21, 21, 21, 21, 21, 21] ∧
    qualifies ⟨"nifty50", "CE", 200, 1, 100⟩ ∧
    ¬ ((100 : ℚ) ∈ (detect_buildup
      [⟨"nifty50", "CE", 100, 1, 21⟩, ⟨"nifty50", "CE", 101, 1, 21⟩,
       ⟨"nifty50", "CE", 102, 1, 21⟩, ⟨"nifty50", "CE", 103, 1, 21⟩,
       ⟨"nifty50", "CE", 104, 1, 21⟩, ⟨"nifty50", "CE", 105, 1, 21⟩,
       ⟨"nifty50", "CE", 106, 1, 21⟩, ⟨"nifty50", "CE", 107, 1, 21⟩,
       ⟨"nifty50", "CE", 108, 1, 21⟩, ⟨"nifty50", "CE", 109, 1, 21⟩,
       ⟨"nifty50", "CE", 200, 1, 100⟩]).map (fun s => s.oi_change_pct)) ∧
    (21 : ℚ) < 100 := by
  refine ⟨?_, by norm_num [qualifies], ?_, by norm_num⟩ <;>
    norm_num [detect_buildup, oiSignalOf, List.filterMap_cons, abs]

/-! ### `ActiveTradesAgent._compute_max_pain` -/

/-- The per-strike dict `{"ce_oi": _, "pe_oi": _}`. -/
structure MpAcc where
  ce_oi : ℚ
  pe_oi : ℚ
deriving DecidableEq, Repr

/-- `if strike not in by_index[idx]: by_index[idx][strike] = {...zeros...}` -/
def mpEnsureStrike (m : List (ℚ × MpAcc)) (s : ℚ) : List (ℚ × MpAcc) :=
  if (m.lookup s).isSome then m else m ++ [(s, ⟨0, 0⟩)]

/-- Assignment `by_index[idx][strike]["ce_oi"/"pe_oi"] = opt.get("oi", 0)`
(an overwrite, not an accumulation, as in the source). -/
def mpSetStrike (m : List (ℚ × MpAcc)) (s : ℚ) (isCE : Bool) (v : ℚ) :
    List (ℚ × MpAcc) :=
  (mpEnsureStrike m s).map fun p =>
    if p.1 = s then (p.1, if isCE then { p.2 with ce_oi := v } else { p.2 with pe_oi := v })
    else p

/-- `if idx not in by_index: by_index[idx] = {}` -/
def mpEnsureIdx (l : List (String × List (ℚ × MpAcc))) (idx : String) :
    List (String × List (ℚ × MpAcc)) :=
  if (l.lookup idx).isSome then l else l ++ [(idx, [])]

/-- One iteration of the grouping loop of `_compute_max_pain`. -/
def mpStep (l : List (String × List (ℚ × MpAcc))) (o : ChainOpt) :
    List (String × List (ℚ × MpAcc)) :=
  (mpEnsureIdx l o.index).map fun p =>
    if p.1 = o.index then (p.1, mpSetStrike p.2 o.strike (o.type = "CE") o.oi)
    else p

/-- The grouping loop of `_compute_max_pain` over the whole chain. -/
def mpGroups (options : List ChainOpt) : List (String × List (ℚ × MpAcc)) :=
  options.foldl mpStep []

/-- The inner `for strike, data in strikes_data.items()` accumulation:
call-buyer pain below the candidate plus put-buyer pain above it. -/
def totalPain (m : List (ℚ × MpAcc)) (test : ℚ) : ℚ :=
  (m.map fun p =>
    (if p.1 < test then (test - p.1) * p.2.ce_oi else 0) +
    (if p.1 > test then (p.1 - test) * p.2.pe_oi else 0)).sum

/-- The minimising scan of `_compute_max_pain`: `min_pain` starts at
`float("inf")` (modelled as `none`), `max_pain_strike` at `0`, and the
strict `<` comparison keeps the first minimum. -/
def mpScan (m : List (ℚ × MpAcc)) (strikes : List ℚ) : ℚ × Option ℚ :=
  strikes.foldl
    (fun acc s =>
      let tp := totalPain m s
      match acc.2 with
      | none => (s, some tp)
      | some mp => if tp < mp then (s, some tp) else acc)
    (0, none)

/-- `ActiveTradesAgent._compute_max_pain`: per index, scan the strikes in
ascending sorted order; the result pairs `max_pain_strike` with
`total_pain_value` (`none` = the initial `inf`, for an empty group). -/
def compute_max_pain (options : List ChainOpt) :
    List (String × (ℚ × Option ℚ)) :=
  (mpGroups options).map fun p =>
    (p.1, mpScan p.2 (List.insertionSort (· ≤ ·) (p.2.map Prod.fst)))

/-- C7: on the two-strike chain `(100, CE OI 10)` and `(110, PE OI 10)`,
both candidate strikes have total pain `100` (so no zero-pain strike
exists and the zero-pain clause is vacuous), the candidates tie, and the
scan returns the lower strike `100` encountered first. -/
theorem compute_max_pain_two_strike_tie :
    mpGroups [⟨"nifty50", "CE", 100, 10, 0⟩, ⟨"nifty50", "PE", 110, 10, 0⟩] =
      [("nifty50", [(100, ⟨10, 0⟩), (110, ⟨0, 10⟩)])] ∧
    totalPain [(100, ⟨10, 0⟩), (110, ⟨0, 10⟩)] 100 = 100 ∧
    totalPain [(100, ⟨10, 0⟩), (110, ⟨0, 10⟩)] 110 = 100 ∧
    (100 : ℚ) < 110 ∧ (100 : ℚ) ≠ 0 ∧
    compute_max_pain [⟨"nifty50", "CE", 100, 10, 0⟩, ⟨"nifty50", "PE", 110, 10, 0⟩] =
      [("nifty50", (100, some 100))] := by
  have h1 : ((110 : ℚ) == 100) = false := by
    rw [beq_eq_false_iff_ne]; norm_num
  have h2 : ¬ ("PE" : String) = "CE" := by decide
  refine ⟨?_, by norm_num [totalPain], by norm_num [totalPain], by norm_num,
    by norm_num, ?_⟩ <;>
    norm_num [compute_max_pain, mpGroups, mpStep, mpEnsureIdx, mpEnsureStrike,
      mpSetStrike, mpScan, totalPain, List.lookup, List.insertionSort,
      List.orderedInsert, h1, h2]

/-! ### `DecisionMakerAgent._check_alignment` -/

/-- The per-index technical data read by the alignment check. -/
structure TechIdx where
  trend : String
  rsi_signal : String
deriving DecidableEq, Repr

/-- Inputs of `_check_alignment`: the sentiment score, the per-index
technical entries, the risk label and the per-index PCR signals (the
fields the function reads, with the source's `.get` defaults applied by
the caller). -/
structure AlignInput where
  sentiment_score : ℚ
  tech : List (String × TechIdx)
  risk_label : String
  pcr_signals : List String
deriving DecidableEq, Repr

/-- The `signals` counter dict, in insertion order
`bullish`, `bearish`, `neutral`. -/
structure Votes where
  bullish : ℕ
  bearish : ℕ
  neutral : ℕ
deriving DecidableEq, Repr

/-- The four vote-counting blocks of `_check_alignment`. -/
def voteCounts (inp : AlignInput) : Votes :=
  let v0 : Votes := ⟨0, 0, 0⟩
  let v1 :=
    if inp.sentiment_score > 1/5 then { v0 with bullish := v0.bullish + 1 }
    else if inp.sentiment_score < -(1/5) then { v0 with bearish := v0.bearish + 1 }
    else { v0 with neutral := v0.neutral + 1 }
  let v2 := inp.tech.foldl
    (fun v p =>
      if p.2.trend = "upward" ∨ p.2.rsi_signal = "bullish" ∨ p.2.rsi_signal = "oversold" then
        { v with bullish := v.bullish + 1 }
      else if p.2.trend = "downward" ∨ p.2.rsi_signal = "bearish" ∨ p.2.rsi_signal = "overbought" then
        { v with bearish := v.bearish + 1 }
      else { v with neutral := v.neutral + 1 }) v1
  let v3 :=
    if inp.risk_label = "low" then { v2 with bullish := v2.bullish + 1 }
    else if inp.risk_label = "high" then { v2 with bearish := v2.bearish + 1 }
    else { v2 with neutral := v2.neutral + 1 }
  inp.pcr_signals.foldl
    (fun v sg =>
      if sg = "bullish" then { v with bullish := v.bullish + 1 }
      else if sg = "bearish" then { v with bearish := v.bearish + 1 }
      else { v with neutral := v.neutral + 1 }) v3

/-- Python's `max(signals, key=signals.get)` over the insertion-ordered
dict: scan `bullish`, `bearish`, `neutral`, replacing the current best
only on a strictly greater count. -/
def pyMaxVote (v : Votes) : String × ℕ :=
  let m1 := ("bullish", v.bullish)
  let m2 := if v.bearish > m1.2 then ("bearish", v.bearish) else m1
  if v.neutral > m2.2 then ("neutral", v.neutral) else m2

/-- The dict returned by `_check_alignment`. -/
structure AlignOut where
  signals : Votes
  dominant : String
  alignment_percentage : ℚ
  is_aligned : Bool
deriving DecidableEq, Repr

/-- `DecisionMakerAgent._check_alignment`. -/
def check_alignment (inp : AlignInput) : AlignOut :=
  let v := voteCounts inp
  let total : ℕ :=
    if v.bullish + v.bearish + v.neutral = 0 then 1
    else v.bullish + v.bearish + v.neutral
  let dm := pyMaxVote v
  let pct : ℚ := (dm.2 : ℚ) / (total : ℚ)
  ⟨v, dm.1, pyRound 1 (pct * 100), decide (pct ≥ 6/10)⟩

/-- C10: ties in the vote counts resolve in the fixed dict order
`bullish`, then `bearish`, then `neutral`; in particular equal bullish
and bearish counts with no larger neutral count give `"bullish"`. -/
theorem check_alignment_tie_break (inp : AlignInput) :
    ((check_alignment inp).dominant =
      if (voteCounts inp).bearish ≤ (voteCounts inp).bullish ∧
         (voteCounts inp).neutral ≤ (voteCounts inp).bullish then "bullish"
      else if (voteCounts inp).neutral ≤ (voteCounts inp).bearish then "bearish"
      else "neutral") ∧
    ((voteCounts inp).bullish = (voteCounts inp).bearish →
      (voteCounts inp).neutral ≤ (voteCounts inp).bullish →
      (check_alignment inp).dominant = "bullish") := by
  have hdom : (check_alignment inp).dominant = (pyMaxVote (voteCounts inp)).1 := rfl
  set v := voteCounts inp with hv
  have key : (pyMaxVote v).1 =
      if v.bearish ≤ v.bullish ∧ v.neutral ≤ v.bullish then "bullish"
      else if v.neutral ≤ v.bearish then "bearish"
      else "neutral" := by
    by_cases hr : v.bearish > v.bullish
    · by_cases hn : v.neutral > v.bearish
      · simp [pyMaxVote, hr, hn]
        rw [if_neg (by omega), if_neg (by omega)]
      · simp [pyMaxVote, hr, hn]
        rw [if_neg (by omega), if_pos (by omega)]
    · by_cases hn : v.neutral > v.bullish
      · simp [pyMaxVote, hr, hn]
        rw [if_neg (by omega), if_neg (by omega)]
      · simp [pyMaxVote, hr, hn]
        rw [if_pos (by omega)]
  refine ⟨hdom.trans key, fun hbr hn => ?_⟩
  rw [hdom, key, if_pos ⟨by omega, hn⟩]

/-- Witness for C10: one bullish vote (sentiment `0.5 > 0.2`) and one
bearish vote (risk label `"high"`) tie, and the dominant bucket is
`"bullish"`. -/
theorem check_alignment_tie_break_witness :
    (check_alignment ⟨1/2, [], "high", []⟩).dominant = "bullish" :=
  (check_alignment_tie_break ⟨1/2, [], "high", []⟩).2
    (by norm_num [voteCounts, show ¬ ("high" : String) = "low" from by decide])
    (by norm_num [voteCounts, show ¬ ("high" : String) = "low" from by decide])

/-! ### `DecisionMakerAgent._generate_recommendations`

Only the fields of the inputs that the function reads are modelled; the
f-string `reason` texts are modelled structurally by `RecReason`. -/

/-- One entry of `active["top_active"]` as read here. -/
structure TopOpt where
  type : String
  index : String
  strike : ℚ
  comparison : String
  activity_score : ℚ
deriving DecidableEq, Repr

/-- Structural model of the `reason` f-strings of the recommendation
dicts. -/
inductive RecReason where
  | bullishActivity (comparison : String)
  | bullishSupport
  | bearishActivity (comparison : String)
  | bearishResistance
  | highVix (vix : ℚ)
  | waitSetup
  | noClear
deriving DecidableEq, Repr

/-- One recommendation dict; keys absent from a given dict are `none`. -/
structure RecAction where
  action : String
  type : Option String
  index : Option String
  strike : Option ℚ
  reason : RecReason
  activity_score : Option ℚ
deriving DecidableEq, Repr

/-- Inputs of `_generate_recommendations`: the alignment fields it reads,
the risk label, VIX, the top-active list, and the
`technicals["indices"]["nifty50"]` support/resistance and `ltp["nifty50"]`
values used for fallback strikes (absent keys are `none`, `.get`
defaults are applied where the source applies them). -/
structure RecInput where
  dominant : String
  is_aligned : Bool
  risk_label : String
  vix : ℚ
  top_active : List TopOpt
  nifty_support : Option ℚ
  nifty_resistance : Option ℚ
  ltp_nifty : Option ℚ
deriving DecidableEq, Repr

/-- The output mapping of `_generate_recommendations`. -/
structure RecOut where
  actions : List RecAction
  primary : RecAction
  confidence : ℚ
  market_regime : String
deriving DecidableEq, Repr

/-- The market-regime ladder on VIX. -/
def marketRegime (vix : ℚ) : String :=
  if vix > 25 then "high_volatility"
  else if vix > 18 then "moderate_volatility"
  else if vix < 13 then "low_volatility"
  else "normal"

/-- A call-buy dict built from a top-active option. -/
def callBuyOf (o : TopOpt) : RecAction :=
  ⟨"BUY", some "CALL", some o.index, some o.strike,
   .bullishActivity o.comparison, some o.activity_score⟩

/-- A put-buy dict built from a top-active option. -/
def putBuyOf (o : TopOpt) : RecAction :=
  ⟨"BUY", some "PUT", some o.index, some o.strike,
   .bearishActivity o.comparison, some o.activity_score⟩

/-- The straddle hedge proposed in the `high_volatility` branch. -/
def straddleAction (vix : ℚ) : RecAction :=
  ⟨"HEDGE", some "STRADDLE", some "nifty50", none, .highVix vix, none⟩

/-- The hold action of the final `else` branch. -/
def holdWait : RecAction :=
  ⟨"HOLD", some "WAIT", none, none, .waitSetup, none⟩

/-- The `actions[0] if actions else {...}` fallback primary. -/
def holdNoClear : RecAction :=
  ⟨"HOLD", none, none, none, .noClear, none⟩

/-- The three-way decision branch of `_generate_recommendations`,
returning the built `actions` list and the confidence it leaves behind
(base confidence `0.3`). -/
def recBranch (inp : RecInput) : List RecAction × ℚ :=
  if inp.is_aligned = true ∧ inp.risk_label ≠ "high" then
    let c : ℚ := 3/10 + 3/10
    if inp.dominant = "bullish" then
      let acts := ((inp.top_active.take 3).filter fun o => o.type = "CE").map callBuyOf
      (if acts = [] then
        [⟨"BUY", some "CALL", some "nifty50",
          some (inp.nifty_support.getD (inp.ltp_nifty.getD 25000)),
          .bullishSupport, none⟩]
      else acts, c)
    else if inp.dominant = "bearish" then
      let acts := ((inp.top_active.take 3).filter fun o => o.type = "PE").map putBuyOf
      (if acts = [] then
        [⟨"BUY", some "PUT", some "nifty50",
          some (inp.nifty_resistance.getD (inp.ltp_nifty.getD 25000)),
          .bearishResistance, none⟩]
      else acts, c)
    else ([], c)
  else if marketRegime inp.vix = "high_volatility" then
    ([straddleAction inp.vix], max (3/10) (4/10))
  else
    ([holdWait], 2/10)

/-- `DecisionMakerAgent._generate_recommendations`: branch, then the
risk-based confidence adjustment, 2-digit rounding, and the primary
fallback. -/
def generate_recommendations (inp : RecInput) : RecOut :=
  let b := recBranch inp
  let conf :=
    if inp.risk_label = "high" then b.2 * (7/10)
    else if inp.risk_label = "low" then min (b.2 * (12/10)) (95/100)
    else b.2
  ⟨b.1, b.1.headD holdNoClear, pyRound 2 conf, marketRegime inp.vix⟩

/-- C2 (amended): with VIX above 25 the straddle hedge is proposed only
when the aligned-and-not-high-risk branch is *not* taken; in that case
the action list is exactly the straddle and it is the primary action. -/
theorem generate_recommendations_high_vix (inp : RecInput)
    (hvix : inp.vix > 25)
    (hna : ¬ (inp.is_aligned = true ∧ inp.risk_label ≠ "high")) :
    (generate_recommendations inp).actions = [straddleAction inp.vix] ∧
    (generate_recommendations inp).primary = straddleAction inp.vix ∧
    (generate_recommendations inp).market_regime = "high_volatility" := by
  have hreg : marketRegime inp.vix = "high_volatility" := by
    rw [marketRegime, if_pos hvix]
  have hb : recBranch inp = ([straddleAction inp.vix], max (3/10) (4/10)) := by
    rw [recBranch, if_neg hna, if_pos hreg]
  refine ⟨?_, ?_, hreg⟩ <;>
    simp [generate_recommendations, hb, hreg]

/-- Witness for C2 (amended): VIX 30 with unaligned signals yields
exactly the straddle hedge. -/
theorem generate_recommendations_high_vix_witness :
    (generate_recommendations ⟨"neutral", false, "medium", 30, [], none, none, none⟩).actions =
      [straddleAction 30] ∧
    (generate_recommendations ⟨"neutral", false, "medium", 30, [], none, none, none⟩).primary =
      straddleAction 30 ∧
    (generate_recommendations
      ⟨"neutral", false, "medium", 30, [], none, none, none⟩).market_regime =
      "high_volatility" :=
  generate_recommendations_high_vix ⟨"neutral", false, "medium", 30, [], none, none, none⟩
    (by norm_num) (by simp)

/-- C2 counterexample: VIX 30 (`> 25`) with aligned bullish signals and
medium risk produces a directional call buy, not a straddle — the
aligned branch takes priority over the volatility hedge. -/
theorem generate_recommendations_counterexample :
    (30 : ℚ) > 25 ∧
    (generate_recommendations ⟨"bullish", true, "medium", 30, [], none, none, none⟩).actions =
      [⟨"BUY", some "CALL", some "nifty50", some 25000, .bullishSupport, none⟩] ∧
    (⟨"BUY", some "CALL", some "nifty50", some 25000, .bullishSupport, none⟩ : RecAction) ≠
      straddleAction 30 ∧
    (generate_recommendations
      ⟨"bullish", true, "medium", 30, [], none, none, none⟩).market_regime =
      "high_volatility" := by
  have hmed : ¬ ("medium" : String) = "high" := by decide
  have hlow : ¬ ("medium" : String) = "low" := by decide
  refine ⟨by norm_num, ?_, ?_, ?_⟩
  · norm_num [generate_recommendations, recBranch, hmed]
  · simp [straddleAction]
  · norm_num [generate_recommendations, marketRegime]

/-! ### `TechnicalAgent._compute_rsi` -/

/-- `np.diff`: successive differences `closes[i+1] - closes[i]`. -/
def npDiff (l : List ℚ) : List ℚ := List.zipWith (· - ·) l.tail l

/-- `np.mean`: sum divided by length (only applied to nonempty slices in
the source). -/
def npMean (l : List ℚ) : ℚ := l.sum / l.length

/-- One iteration of the Wilder-smoothing loop, updating the running
`(avg_gain, avg_loss)` pair with `(gains[i], losses[i])`. -/
def wilderStep (period : ℕ) (p : ℚ × ℚ) (gl : ℚ × ℚ) : ℚ × ℚ :=
  ((p.1 * ((period : ℚ) - 1) + gl.1) / (period : ℚ),
   (p.2 * ((period : ℚ) - 1) + gl.2) / (period : ℚ))

/-- `TechnicalAgent._compute_rsi`. -/
def compute_rsi (closes : List ℚ) (period : ℕ) : ℚ :=
  if closes.length < period + 1 then 50
  else
    let deltas := npDiff closes
    let gains := deltas.map fun d => if d > 0 then d else 0
    let losses := deltas.map fun d => if d < 0 then -d else 0
    let start := (npMean (gains.take period), npMean (losses.take period))
    let avgs := ((gains.drop period).zip (losses.drop period)).foldl
      (wilderStep period) start
    if avgs.2 = 0 then 100
    else
      let rs := avgs.1 / avgs.2
      100 - 100 / (1 + rs)

theorem npDiff_pos_of_chain (l : List ℚ) (h : List.Chain' (· < ·) l) :
    ∀ d ∈ npDiff l, 0 < d := by
  induction l with
  | nil => simp [npDiff]
  | cons a t ih =>
    cases t with
    | nil => simp [npDiff]
    | cons b u =>
      intro d hd
      rw [npDiff, List.tail_cons, List.zipWith_cons_cons] at hd
      rcases List.mem_cons.mp hd with h1 | h1
      · have hab := List.chain'_cons.mp h
        subst h1
        linarith [hab.1]
      · exact ih (List.chain'_cons.mp h).2 d (by rwa [npDiff, List.tail_cons])

theorem wilder_snd_zero (period : ℕ) (zl : List (ℚ × ℚ))
    (hz : ∀ p ∈ zl, p.2 = 0) :
    ∀ a : ℚ, (zl.foldl (wilderStep period) (a, 0)).2 = 0 := by
  induction zl with
  | nil => intro a; rfl
  | cons p t ih =>
    intro a
    have hp : p.2 = 0 := hz p (List.mem_cons_self p t)
    have hstep : wilderStep period (a, 0) p = ((a * ((period : ℚ) - 1) + p.1) / period, 0) := by
      unfold wilderStep
      rw [hp]
      norm_num
    rw [List.foldl_cons, hstep]
    exact ih (fun q hq => hz q (List.mem_cons_of_mem p hq)) _

/-- C6: a strictly increasing close series of length at least 15 has no
losses, keeps `avg_loss = 0` through the Wilder loop, and hits the
`avg_loss == 0` branch: RSI is exactly 100. -/
theorem compute_rsi_strict_mono (closes : List ℚ)
    (hmono : List.Chain' (· < ·) closes) (hlen : 15 ≤ closes.length) :
    compute_rsi closes 14 = 100 := by
  rw [compute_rsi, if_neg (by omega)]
  have hdelta := npDiff_pos_of_chain closes hmono
  have hloss : ∀ x ∈ (npDiff closes).map (fun d => if d < 0 then -d else 0), x = 0 := by
    intro x hx
    obtain ⟨d, hd, rfl⟩ := List.mem_map.mp hx
    rw [if_neg (by linarith [hdelta d hd])]
  have hmean : npMean (((npDiff closes).map fun d => if d < 0 then -d else 0).take 14) = 0 := by
    have : ∀ x ∈ ((npDiff closes).map fun d => if d < 0 then -d else 0).take 14, x = 0 :=
      fun x hx => hloss x (List.mem_of_mem_take hx)
    rw [npMean, List.sum_eq_zero this, zero_div]
  have hzip : ∀ p ∈ (((npDiff closes).map fun d => if d > 0 then d else 0).drop 14).zip
      (((npDiff closes).map fun d => if d < 0 then -d else 0).drop 14), p.2 = 0 := by
    intro p hp
    exact hloss p.2 (List.mem_of_mem_drop (List.of_mem_zip hp).2)
  simp only [hmean]
  rw [wilder_snd_zero 14 _ hzip]
  simp

/-- Witness for C6: the strictly increasing series `1, …, 15` yields
RSI exactly 100. -/
theorem compute_rsi_strict_mono_witness :
    compute_rsi [1, 2, 3, 4, 5, 6, 7, 8, 9, 10, 11, 12, 13, 14, 15] 14 = 100 :=
  compute_rsi_strict_mono [1, 2, 3, 4, 5, 6, 7, 8, 9, 10, 11, 12, 13, 14, 15]
    (by norm_num) (by norm_num)

/-! ### `SharedState` and the orchestrator

The JSON-like values stored in the shared dict. Wall-clock readings
(`datetime.now()`, `time.time()`) are passed in as parameters. -/

inductive SVal where
  | str (s : String)
  | num (q : ℚ)
  | list (l : List SVal)

/-- `SharedState`: the `_state` dict plus the `_cycle_id` /
`_cycle_start` attributes.  The `threading.RLock` serialises access and
has no effect on the sequential semantics modelled here. -/
structure SharedState where
  state : List (String × SVal)
  cycle_id : Option String
  cycle_start : Option ℚ

/-- `SharedState.set`: `self._state[key] = value` (overwrite or append). -/
def SharedState.setKey (s : SharedState) (k : String) (v : SVal) : SharedState :=
  { s with state :=
      if (s.state.lookup k).isSome then
        s.state.map fun p => if p.1 = k then (p.1, v) else p
      else s.state ++ [(k, v)] }

/-- `SharedState.start_cycle`: assigns a **fresh** dict holding exactly
the four bookkeeping keys; `cid` and `now` model the
`datetime.now().strftime(...)` id and `time.time()` reading. -/
def SharedState.start_cycle (_s : SharedState) (cid : String) (now : ℚ) : SharedState :=
  { state := [("cycle_id", .str cid), ("cycle_start", .num now),
              ("agents_completed", .list []), ("errors", .list [])],
    cycle_id := some cid,
    cycle_start := some now }

/-- C9: `start_cycle` replaces the whole state mapping — whatever was
written before (here: an arbitrary prior state `s`, additionally
mutated by an arbitrary `set`), afterwards the mapping holds exactly
`cycle_id`, `cycle_start`, an empty `agents_completed` and an empty
`errors`, and every other key is absent. -/
theorem start_cycle_resets (s : SharedState) (cid : String) (now : ℚ)
    (k : String) (kv : String) (vv : SVal)
    (hk : k ∉ (["cycle_id", "cycle_start", "agents_completed", "errors"] : List String)) :
    ((s.start_cycle cid now).state.map Prod.fst =
      ["cycle_id", "cycle_start", "agents_completed", "errors"]) ∧
    (s.start_cycle cid now).state.lookup "cycle_id" = some (.str cid) ∧
    (s.start_cycle cid now).state.lookup "cycle_start" = some (.num now) ∧
    (s.start_cycle cid now).state.lookup "agents_completed" = some (.list []) ∧
    (s.start_cycle cid now).state.lookup "errors" = some (.list []) ∧
    (s.start_cycle cid now).state.lookup k = none ∧
    (s.setKey kv vv).start_cycle cid now = s.start_cycle cid now := by
  simp only [List.mem_cons, List.not_mem_nil, or_false, not_or] at hk
  obtain ⟨h1, h2, h3, h4⟩ := hk
  refine ⟨by simp [SharedState.start_cycle], by simp [SharedState.start_cycle, List.lookup],
    ?_, ?_, ?_, ?_, rfl⟩
  · rw [SharedState.start_cycle]
    rw [lookup_cons_ne _ _ (by decide), lookup_cons_self]
  · rw [SharedState.start_cycle]
    rw [lookup_cons_ne _ _ (by decide), lookup_cons_ne _ _ (by decide), lookup_cons_self]
  · rw [SharedState.start_cycle]
    rw [lookup_cons_ne _ _ (by decide), lookup_cons_ne _ _ (by decide),
      lookup_cons_ne _ _ (by decide), lookup_cons_self]
  · rw [SharedState.start_cycle]
    rw [lookup_cons_ne _ _ h1, lookup_cons_ne _ _ h2, lookup_cons_ne _ _ h3,
      lookup_cons_ne _ _ h4]
    rfl

/-- Witness for C9: after a cycle that wrote `options_chain`, starting a
new cycle leaves no trace of it. -/
theorem start_cycle_resets_witness :
    ((SharedState.start_cycle ⟨[], none, none⟩ "c1" 0).state.lookup "options_chain" = none) ∧
    ((SharedState.setKey ⟨[], none, none⟩ "options_chain" (.list [])).start_cycle "c2" 1 =
      SharedState.start_cycle ⟨[], none, none⟩ "c2" 1) :=
  ⟨(start_cycle_resets ⟨[], none, none⟩ "c1" 0 "options_chain" "x" (.num 0)
      (by decide)).2.2.2.2.2.1,
   (start_cycle_resets ⟨[], none, none⟩ "c2" 1 "options_chain" "options_chain" (.list [])
      (by decide)).2.2.2.2.2.2⟩

/-! ### `AutoTradeOrchestrator._run_agent` / `run_single_cycle`

An agent invocation either returns a result mapping or raises; this is
modelled as `Except String (List (String × SVal))`.  `asyncio.gather`
over the four independent wrapped coroutines (each reading the shared
snapshot) is order-independent for the per-task statuses, so the
parallel stage is modelled as the list of the four wrapped outputs.
Timestamps and durations are wall-clock readings, modelled as `0`;
the logger and shared-state bookkeeping calls are modelled as
non-failing, matching the cycle-level `try` of the source. -/

/-- The `AgentOutput` dataclass. -/
structure AgentOutput where
  agent_name : String
  data : List (String × SVal)
  duration_ms : ℚ
  status : String
  error : Option String

/-- `AutoTradeOrchestrator._run_agent`: run the agent, converting an
exception into a `status="error"` output and a result into a
`status="success"` output; nothing propagates. -/
def run_agent (name : String) (beh : Except String (List (String × SVal))) :
    AgentOutput :=
  match beh with
  | .ok d => ⟨name, d, 0, "success", none⟩
  | .error e => ⟨name, [], 0, "error", some e⟩

/-- The behaviours of the seven agent invocations of one cycle. -/
structure CycleBeh where
  fetch : Except String (List (String × SVal))
  sentiment : Except String (List (String × SVal))
  technical : Except String (List (String × SVal))
  risk_metrics : Except String (List (String × SVal))
  active_trades : Except String (List (String × SVal))
  decision : Except String (List (String × SVal))
  monitor : Except String (List (String × SVal))

/-- The cycle summary fields of `run_single_cycle` that the claims are
about. -/
structure CycleResult where
  status : String
  fetch_out : AgentOutput
  parallel : List AgentOutput
  decision_out : AgentOutput
  monitor_out : AgentOutput

/-- `AutoTradeOrchestrator.run_single_cycle`: every stage goes through
`_run_agent` (and the parallel stage additionally through
`asyncio.gather(..., return_exceptions=True)`), so no agent exception
reaches the cycle-level `except` and the summary status is
`"completed"`. -/
def run_single_cycle (b : CycleBeh) : CycleResult :=
  { status := "completed"
    fetch_out := run_agent "data_fetcher" b.fetch
    parallel :=
      [run_agent "sentiment" b.sentiment,
       run_agent "technical" b.technical,
       run_agent "risk_metrics" b.risk_metrics,
       run_agent "active_trades" b.active_trades]
    decision_out := run_agent "decision_maker" b.decision
    monitor_out := run_agent "monitor" b.monitor }

/-- `True` iff the agent invocation raised. -/
def behFails (e : Except String (List (String × SVal))) : Bool :=
  match e with
  | .ok _ => false
  | .error _ => true

theorem run_agent_status (name : String) (beh : Except String (List (String × SVal))) :
    (run_agent name beh).status = if behFails beh then "error" else "success" := by
  cases beh <;> rfl

/-- C5: if exactly one of the four parallel behaviours raises, the other
three parallel outputs still have status `"success"`, the failing one is
recorded as `"error"`, and the cycle result's status is `"completed"`,
not `"error"`. -/
theorem run_single_cycle_isolation (b : CycleBeh)
    (hone : ([b.sentiment, b.technical, b.risk_metrics, b.active_trades].countP behFails) = 1) :
    ((run_single_cycle b).parallel.countP (fun o => o.status == "success")) = 3 ∧
    ((run_single_cycle b).parallel.countP (fun o => o.status == "error")) = 1 ∧
    (run_single_cycle b).status = "completed" ∧
    (run_single_cycle b).status ≠ "error" := by
  refine ⟨?_, ?_, rfl, show ("completed" : String) ≠ "error" by decide⟩ <;>
  · rcases hs : b.sentiment with d1 | e1 <;> rcases ht : b.technical with d2 | e2 <;>
      rcases hr : b.risk_metrics with d3 | e3 <;> rcases ha : b.active_trades with d4 | e4 <;>
      simp_all [run_single_cycle, run_agent, behFails, List.countP_cons, List.countP_nil]

/-- Witness for C5: the technical agent alone raising leaves three
successes, one recorded error, and a completed cycle. -/
theorem run_single_cycle_isolation_witness :
    ((run_single_cycle ⟨.ok [], .ok [], .error "boom", .ok [], .ok [], .ok [], .ok []⟩).parallel.countP
      (fun o => o.status == "success")) = 3 ∧
    ((run_single_cycle ⟨.ok [], .ok [], .error "boom", .ok [], .ok [], .ok [], .ok []⟩).parallel.countP
      (fun o => o.status == "error")) = 1 ∧
    (run_single_cycle ⟨.ok [], .ok [], .error "boom", .ok [], .ok [], .ok [], .ok []⟩).status =
      "completed" ∧
    (run_single_cycle ⟨.ok [], .ok [], .error "boom", .ok [], .ok [], .ok [], .ok []⟩).status ≠
      "error" :=
  run_single_cycle_isolation ⟨.ok [], .ok [], .error "boom", .ok [], .ok [], .ok [], .ok []⟩
    (by simp [behFails, List.countP_cons, List.countP_nil])

/-! ### `RiskMetricsAgent._black_scholes_greeks`

The transcendental helpers (`math.exp`, `math.log`, `math.sqrt`,
`scipy.stats.norm.cdf`, `norm.pdf`) are abstracted as a record of
functions; theorems assume exactly the mathematical facts of the real
functions they need (CDF symmetry, `exp 0 = 1`, positivity of `sqrt` on
positives). -/

structure RealOps where
  exp : ℚ → ℚ
  log : ℚ → ℚ
  sqrt : ℚ → ℚ
  cdf : ℚ → ℚ
  pdf : ℚ → ℚ

/-- The exception raised (if any) while evaluating the `try` block of
`_black_scholes_greeks`, in source order: `math.sqrt` of a negative,
`S / K` with `K == 0`, `math.log` of a non-positive ratio, and the
`d1` division by `sigma * sqrt_t == 0`.  (After these guards all later
denominators — `2 * sqrt_t` and `S * sigma * sqrt_t` — are nonzero.) -/
def bsRaise (ops : RealOps) (S K t sigma : ℚ) : Option String :=
  if t < 0 then some "math domain error"
  else if K = 0 then some "float division by zero"
  else if S / K ≤ 0 then some "math domain error"
  else if sigma * ops.sqrt t = 0 then some "float division by zero"
  else none

/-- `d1 = [ln(S/K) + (r + σ²/2)·t] / (σ·√t)`. -/
def bsD1 (ops : RealOps) (S K t r sigma : ℚ) : ℚ :=
  (ops.log (S / K) + (r + sigma ^ 2 / 2) * t) / (sigma * ops.sqrt t)

/-- `d2 = d1 − σ·√t`. -/
def bsD2 (ops : RealOps) (S K t r sigma : ℚ) : ℚ :=
  bsD1 ops S K t r sigma - sigma * ops.sqrt t

/-- The un-rounded theoretical price of the call / put branch. -/
def bsPriceRaw (ops : RealOps) (S K t r sigma : ℚ) (isCall : Bool) : ℚ :=
  if isCall then
    S * ops.cdf (bsD1 ops S K t r sigma) -
      K * ops.exp (-(r * t)) * ops.cdf (bsD2 ops S K t r sigma)
  else
    K * ops.exp (-(r * t)) * ops.cdf (-(bsD2 ops S K t r sigma)) -
      S * ops.cdf (-(bsD1 ops S K t r sigma))

/-- The successful result dict of `_black_scholes_greeks`. -/
structure BSOk where
  delta : ℚ
  gamma : ℚ
  theta : ℚ
  vega : ℚ
  rho : ℚ
  theoretical_price : ℚ
  d1 : ℚ
  d2 : ℚ
  iv_used : ℚ

/-- Result of `_black_scholes_greeks`: either the Greeks dict or the
zeroed dict tagged with the exception text. -/
inductive BSResult where
  | ok (g : BSOk)
  | err (reason : String)

/-- The `delta` entry of the returned dict (`0` in the error dict). -/
def BSResult.delta : BSResult → ℚ
  | .ok g => g.delta
  | .err _ => 0

/-- The `gamma` entry of the returned dict (`0` in the error dict). -/
def BSResult.gamma : BSResult → ℚ
  | .ok g => g.gamma
  | .err _ => 0

/-- The `theta` entry of the returned dict (`0` in the error dict). -/
def BSResult.theta : BSResult → ℚ
  | .ok g => g.theta
  | .err _ => 0

/-- The `vega` entry of the returned dict (`0` in the error dict). -/
def BSResult.vega : BSResult → ℚ
  | .ok g => g.vega
  | .err _ => 0

/-- The `rho` entry of the returned dict (`0` in the error dict). -/
def BSResult.rho : BSResult → ℚ
  | .ok g => g.rho
  | .err _ => 0

/-- The `theoretical_price` entry of the returned dict (`0` in the error
dict). -/
def BSResult.theoretical_price : BSResult → ℚ
  | .ok g => g.theoretical_price
  | .err _ => 0

/-- The `error` entry: present exactly in the exception dict. -/
def BSResult.error : BSResult → Option String
  | .ok _ => none
  | .err e => some e

/-- `RiskMetricsAgent._black_scholes_greeks`. -/
def black_scholes_greeks (ops : RealOps) (S K t r sigma : ℚ) (isCall : Bool) :
    BSResult :=
  match bsRaise ops S K t sigma with
  | some e => .err e
  | none =>
    let sqrt_t := ops.sqrt t
    let d1 := bsD1 ops S K t r sigma
    let d2 := bsD2 ops S K t r sigma
    let nprime_d1 := ops.pdf d1
    let disc := ops.exp (-(r * t))
    let delta := if isCall then ops.cdf d1 else ops.cdf d1 - 1
    let price := bsPriceRaw ops S K t r sigma isCall
    let theta :=
      if isCall then
        -(S * nprime_d1 * sigma / (2 * sqrt_t)) - r * K * disc * ops.cdf d2
      else
        -(S * nprime_d1 * sigma / (2 * sqrt_t)) + r * K * disc * ops.cdf (-d2)
    let rho :=
      if isCall then K * t * disc * ops.cdf d2
      else -(K * t * disc * ops.cdf (-d2))
    let gamma := nprime_d1 / (S * sigma * sqrt_t)
    let vega := S * sqrt_t * nprime_d1
    .ok ⟨pyRound 4 delta, pyRound 6 gamma, pyRound 4 (theta / 365),
         pyRound 4 (vega / 100), pyRound 4 (rho / 100), pyRound 2 price,
         pyRound 4 d1, pyRound 4 d2, pyRound 2 (sigma * 100)⟩

theorem parity_core (cdf : ℚ → ℚ) (h : ∀ x, cdf x + cdf (-x) = 1)
    (S Kd d1 d2 : ℚ) :
    S * cdf d1 - Kd * cdf d2 - (Kd * cdf (-d2) - S * cdf (-d1)) = S - Kd := by
  linear_combination S * h d1 - Kd * h d2

theorem bsRaise_none (ops : RealOps) (S K t sigma : ℚ)
    (hS : 0 < S) (hK : 0 < K) (ht : 0 < t) (hsig : sigma ≠ 0)
    (hsq : ops.sqrt t ≠ 0) : bsRaise ops S K t sigma = none := by
  rw [bsRaise, if_neg (by linarith), if_neg (ne_of_gt hK),
    if_neg (by push_neg; positivity), if_neg (mul_ne_zero hsig hsq)]

theorem black_scholes_ok_price (ops : RealOps) (S K t r sigma : ℚ) (ic : Bool)
    (h : bsRaise ops S K t sigma = none) :
    (black_scholes_greeks ops S K t r sigma ic).theoretical_price =
      pyRound 2 (bsPriceRaw ops S K t r sigma ic) := by
  rw [black_scholes_greeks, h]
  rfl

theorem abs_pyRound_sub (n : ℕ) (x : ℚ) :
    |pyRound n x - x| ≤ 1 / (2 * 10 ^ n) := by
  have h10 : (0 : ℚ) < 10 ^ n := by positivity
  have h := abs_sub_round (x * 10 ^ n)
  rw [pyRound, show ((round (x * 10 ^ n) : ℤ) : ℚ) / 10 ^ n - x =
    -((x * 10 ^ n - round (x * 10 ^ n)) / 10 ^ n) by field_simp; ring,
    abs_neg, abs_div, abs_of_pos h10, div_le_div_iff₀ h10 (by positivity)]
  calc |x * 10 ^ n - (round (x * 10 ^ n) : ℤ)| * (2 * 10 ^ n)
      ≤ (1 / 2) * (2 * 10 ^ n) := by
        apply mul_le_mul_of_nonneg_right h (by positivity)
    _ = 1 * 10 ^ n := by ring

/-- C4 (amended): put-call parity.  For positive `S`, `K`, `t`, `sigma`
(and a CDF satisfying `N(x) + N(-x) = 1`, as `scipy.stats.norm.cdf`
does), the *un-rounded* theoretical prices satisfy
`call − put = S − K·e^{−rt}` exactly; the `theoretical_price` values
actually returned are rounded to 2 decimals, so their difference matches
`S − K·e^{−rt}` to within `0.01` (not `1e-6`). -/
theorem bs_put_call_parity (ops : RealOps) (S K t r sigma : ℚ)
    (hcdf : ∀ x, ops.cdf x + ops.cdf (-x) = 1)
    (hS : 0 < S) (hK : 0 < K) (ht : 0 < t) (hsig : 0 < sigma)
    (hsq : 0 < ops.sqrt t) :
    (bsPriceRaw ops S K t r sigma true - bsPriceRaw ops S K t r sigma false =
      S - K * ops.exp (-(r * t))) ∧
    |(black_scholes_greeks ops S K t r sigma true).theoretical_price -
      (black_scholes_greeks ops S K t r sigma false).theoretical_price -
      (S - K * ops.exp (-(r * t)))| ≤ 1 / 100 := by
  have hraw : bsPriceRaw ops S K t r sigma true - bsPriceRaw ops S K t r sigma false =
      S - K * ops.exp (-(r * t)) := by
    rw [bsPriceRaw, bsPriceRaw, if_pos rfl, if_neg (by simp)]
    have := parity_core ops.cdf hcdf S (K * ops.exp (-(r * t)))
      (bsD1 ops S K t r sigma) (bsD2 ops S K t r sigma)
    linarith
  have hnone := bsRaise_none ops S K t sigma hS hK ht (ne_of_gt hsig) (ne_of_gt hsq)
  refine ⟨hraw, ?_⟩
  rw [black_scholes_ok_price ops S K t r sigma true hnone,
    black_scholes_ok_price ops S K t r sigma false hnone]
  have hc := abs_pyRound_sub 2 (bsPriceRaw ops S K t r sigma true)
  have hp := abs_pyRound_sub 2 (bsPriceRaw ops S K t r sigma false)
  have habs : |pyRound 2 (bsPriceRaw ops S K t r sigma true) -
      pyRound 2 (bsPriceRaw ops S K t r sigma false) - (S - K * ops.exp (-(r * t)))| =
      |(pyRound 2 (bsPriceRaw ops S K t r sigma true) - bsPriceRaw ops S K t r sigma true) -
       (pyRound 2 (bsPriceRaw ops S K t r sigma false) - bsPriceRaw ops S K t r sigma false)| := by
    rw [← hraw]; ring_nf
  rw [habs]
  calc |(pyRound 2 (bsPriceRaw ops S K t r sigma true) - bsPriceRaw ops S K t r sigma true) -
       (pyRound 2 (bsPriceRaw ops S K t r sigma false) - bsPriceRaw ops S K t r sigma false)|
      ≤ |pyRound 2 (bsPriceRaw ops S K t r sigma true) - bsPriceRaw ops S K t r sigma true| +
        |pyRound 2 (bsPriceRaw ops S K t r sigma false) - bsPriceRaw ops S K t r sigma false| :=
        abs_sub _ _
    _ ≤ 1 / (2 * 10 ^ 2) + 1 / (2 * 10 ^ 2) := add_le_add hc hp
    _ ≤ 1 / 100 := by norm_num

/-- Concrete operations used to instantiate `RealOps` in witnesses: a
constant CDF `1/2` (which is symmetric), `exp = 1`, `sqrt = 1`,
`log = 0`, `pdf = 0`. -/
def constOps : RealOps :=
  ⟨fun _ => 1, fun _ => 0, fun _ => 1, fun _ => 1/2, fun _ => 0⟩

/-- Witness for C4 at `S = K = 100`, `t = 1`, `r = 0`, `sigma = 1`. -/
theorem bs_put_call_parity_witness :
    (bsPriceRaw constOps 100 100 1 0 1 true - bsPriceRaw constOps 100 100 1 0 1 false =
      100 - 100 * constOps.exp (-(0 * 1))) ∧
    |(black_scholes_greeks constOps 100 100 1 0 1 true).theoretical_price -
      (black_scholes_greeks constOps 100 100 1 0 1 false).theoretical_price -
      (100 - 100 * constOps.exp (-(0 * 1)))| ≤ 1 / 100 :=
  bs_put_call_parity constOps 100 100 1 0 1 (fun x => by norm_num [constOps])
    (by norm_num) (by norm_num) (by norm_num) (by norm_num) (by norm_num [constOps])

/-- C4 counterexample: the claim as stated — the *returned*
`theoretical_price` difference matches `S − K·e^{−rt}` within `1e-6` —
is false: returned prices are rounded to 2 decimals, so at
`S = 100.004`, `K = 100`, `t = 1`, `r = 0` the difference is a multiple
of `0.01` while the parity gap is `0.004`, off by `0.004 > 1e-6`.
(The instantiating CDF is symmetric, and any symmetric CDF gives the
same rounding obstruction.) -/
theorem bs_parity_tolerance_counterexample :
    ¬ (∀ (ops : RealOps) (S K t r sigma : ℚ),
        (∀ x, ops.cdf x + ops.cdf (-x) = 1) → ops.exp 0 = 1 →
        0 < S → 0 < K → 0 < t → 0 < sigma →
        |(black_scholes_greeks ops S K t r sigma true).theoretical_price -
          (black_scholes_greeks ops S K t r sigma false).theoretical_price -
          (S - K * ops.exp (-(r * t)))| ≤ 1 / 1000000) := by
  intro h
  have hone := h constOps (100 + 1/250) 100 1 0 1
    (fun x => by norm_num [constOps]) (by norm_num [constOps])
    (by norm_num) (by norm_num) (by norm_num) (by norm_num)
  have hnone : bsRaise constOps (100 + 1/250) 100 1 1 = none :=
    bsRaise_none constOps (100 + 1/250) 100 1 1 (by norm_num) (by norm_num)
      (by norm_num) (by norm_num) (by norm_num [constOps])
  rw [black_scholes_ok_price _ _ _ _ _ _ true hnone,
    black_scholes_ok_price _ _ _ _ _ _ false hnone] at hone
  norm_num [bsPriceRaw, constOps, pyRound, round_eq] at hone
  rw [show |(1 : ℚ)/250| = 1/250 from abs_of_pos (by norm_num)] at hone
  norm_num at hone

/-- C8 (amended): the inputs on which the Python computation actually
raises — negative `t`, `K = 0`, non-positive ratio `S/K`, or
`sigma·√t = 0` — give the zeroed-Greeks dict carrying the exception
text.  (A negative `sigma` with positive `S`, `K`, `t` raises nothing;
see the counterexample.) -/
theorem bs_degenerate_zeroed (ops : RealOps) (S K t r sigma : ℚ) (ic : Bool)
    (hdeg : t < 0 ∨ K = 0 ∨ S / K ≤ 0 ∨ sigma * ops.sqrt t = 0) :
    ∃ e, black_scholes_greeks ops S K t r sigma ic = .err e ∧
      (black_scholes_greeks ops S K t r sigma ic).error = some e ∧
      (black_scholes_greeks ops S K t r sigma ic).delta = 0 ∧
      (black_scholes_greeks ops S K t r sigma ic).gamma = 0 ∧
      (black_scholes_greeks ops S K t r sigma ic).theta = 0 ∧
      (black_scholes_greeks ops S K t r sigma ic).vega = 0 ∧
      (black_scholes_greeks ops S K t r sigma ic).rho = 0 ∧
      (black_scholes_greeks ops S K t r sigma ic).theoretical_price = 0 := by
  have hsome : ∃ e, bsRaise ops S K t sigma = some e := by
    rw [bsRaise]
    split_ifs with h1 h2 h3 h4
    · exact ⟨_, rfl⟩
    · exact ⟨_, rfl⟩
    · exact ⟨_, rfl⟩
    · exact ⟨_, rfl⟩
    · rcases hdeg with h | h | h | h
      exacts [absurd h h1, absurd h h2, absurd h h3, absurd h h4]
  obtain ⟨e, he⟩ := hsome
  have heq : black_scholes_greeks ops S K t r sigma ic = .err e := by
    rw [black_scholes_greeks, he]
  exact ⟨e, heq, by rw [heq]; rfl, by rw [heq]; rfl, by rw [heq]; rfl,
    by rw [heq]; rfl, by rw [heq]; rfl, by rw [heq]; rfl, by rw [heq]; rfl⟩

/-- Witness for C8 (amended) at `sigma = 0` (the `d1` division by
zero). -/
theorem bs_degenerate_zeroed_witness :
    ∃ e, black_scholes_greeks constOps 100 100 1 0 0 true = .err e ∧
      (black_scholes_greeks constOps 100 100 1 0 0 true).error = some e ∧
      (black_scholes_greeks constOps 100 100 1 0 0 true).delta = 0 ∧
      (black_scholes_greeks constOps 100 100 1 0 0 true).gamma = 0 ∧
      (black_scholes_greeks constOps 100 100 1 0 0 true).theta = 0 ∧
      (black_scholes_greeks constOps 100 100 1 0 0 true).vega = 0 ∧
      (black_scholes_greeks constOps 100 100 1 0 0 true).rho = 0 ∧
      (black_scholes_greeks constOps 100 100 1 0 0 true).theoretical_price = 0 :=
  bs_degenerate_zeroed constOps 100 100 1 0 0 true
    (Or.inr (Or.inr (Or.inr (by norm_num [constOps]))))

/-- C8 counterexample: the claim as stated — *every* zero-or-negative
spot, strike, volatility or time yields the zeroed error dict — is
false: at `sigma = -1` with `S = K = 100`, `t = 1` nothing raises
(`log(S/K) = log 1` is fine and `sigma·√t = -1 ≠ 0`), so the function
returns an ordinary result with no `error` entry. -/
theorem bs_degenerate_counterexample :
    ¬ (∀ (ops : RealOps) (S K t r sigma : ℚ) (ic : Bool),
        (∀ x, 0 < x → 0 < ops.sqrt x) →
        (S ≤ 0 ∨ K ≤ 0 ∨ t ≤ 0 ∨ sigma ≤ 0) →
        ∃ e, black_scholes_greeks ops S K t r sigma ic = .err e) := by
  intro h
  obtain ⟨e, he⟩ := h constOps 100 100 1 0 (-1) true
    (fun x hx => by norm_num [constOps])
    (Or.inr (Or.inr (Or.inr (by norm_num))))
  have hnone : bsRaise constOps 100 100 1 (-1) = none :=
    bsRaise_none constOps 100 100 1 (-1) (by norm_num) (by norm_num)
      (by norm_num) (by norm_num) (by norm_num [constOps])
  rw [black_scholes_greeks, hnone] at he
  exact BSResult.noConfusion he
